import Mathlib

/-!
Shallow embedding of the moment-aggregation engine of `video_search.py`.

Numbers are modelled by `ℚ` (exact arithmetic in place of Python floats).
A CSV cell that is missing (NaN) is an absent entry in the row's cell list.
A dataset read is modelled by `LoadResult`: the file may be missing
(`os.path.exists` false), the read may raise (`pd.read_csv` or any later
statement of the enclosing `try` block), or it yields a `DataFrame`.
A form field `start_time` / `end_time` that fails `float(...)` parsing is
modelled by `none`.
-/

set_option maxRecDepth 100000
set_option maxHeartbeats 1600000

namespace VideoSearch

/-- The fixed, ordered measure list `ORDERED_MEASURES` of `video_search.py`
(lines 51-64); order is significant for exports. -/
def ORDERED_MEASURES : List String :=
  ["Approach / Withdraw",
   "Engagement",
   "Emotional Intensity",
   "Memory Encoding - Detail",
   "Memory Encoding - Global",
   "Memory Encoding - Composite",
   "General Attention - Detail",
   "General Attention - Global",
   "General Attention - Composite",
   "Visual Attention - Detail",
   "Visual Attention - Global",
   "Visual Attention - Composite"]

/-- One row of a per-video CSV dataset: the value of the `Time` column and
the named measure cells present in that row (a NaN cell is simply absent). -/
structure Row where
  time : ℚ
  cells : List (String × ℚ)
deriving DecidableEq, Repr

/-- A loaded per-video dataset (`pd.read_csv(csv_filename, header=1)` with the
first column renamed to `Time`): the measure columns the header declares and
the data rows. -/
structure DataFrame where
  cols : List String
  rows : List Row
deriving DecidableEq, Repr

/-- Result of trying to load `csv_data/{video_id}.csv`:
`missing` models `os.path.exists(csv_filename)` being false,
`readError` models the dataset read (or any later statement in the same
`try` block) raising, `ok` a successful load. -/
inductive LoadResult where
  | missing : LoadResult
  | readError : LoadResult
  | ok : DataFrame → LoadResult
deriving DecidableEq, Repr

/-- The CSV folder, as a map from video id to load outcome. -/
abbrev Store := String → LoadResult

/-- One selected moment, as the parallel form lists `video_id`,
`start_time`, `end_time`, `ad_name` pair up (`none` models a value whose
`float(...)` parse raises `ValueError`). -/
structure Moment where
  video_id : String
  start_time : Option ℚ
  end_time : Option ℚ
  ad_name : String
deriving DecidableEq, Repr

/-- Python `min(list)` on a nonempty list; `0` is never used by the code on
an empty list without its own emptiness guard. -/
def minList : List ℚ → ℚ
  | [] => 0
  | x :: xs => xs.foldl min x

/-- Python `max(list)` on a nonempty list. -/
def maxList : List ℚ → ℚ
  | [] => 0
  | x :: xs => xs.foldl max x

/-- `df["Time"].min()` — the first available timestamp. -/
def DataFrame.minTime (df : DataFrame) : ℚ := minList (df.rows.map Row.time)

/-- `df["Time"].max()` — the last available timestamp. -/
def DataFrame.maxTime (df : DataFrame) : ℚ := maxList (df.rows.map Row.time)

/-- The fixed tolerance `tol = 0.05` of `aggregated_line` and the snapping
checks. -/
def tol : ℚ := 1 / 20

/-- Python's `abs(...)` on a rational (kernel-computable; equal to the
mathematical absolute value, see `ratAbs_eq_abs`). -/
def ratAbs (q : ℚ) : ℚ := if q < 0 then -q else q

theorem ratAbs_eq_abs (q : ℚ) : ratAbs q = |q| := by
  rw [ratAbs]
  split
  · rw [abs_of_neg (by assumption)]
  · rw [abs_of_nonneg (le_of_not_lt (by assumption))]

/-- The `durations` list of `aggregated_graphs` / `compute_averages` /
`aggregated_results` (lines 810-817): `end - start` for every moment whose
start and end both parse. -/
def durations (moments : List Moment) : List ℚ :=
  moments.filterMap fun m =>
    match m.start_time, m.end_time with
    | some st, some et => some (et - st)
    | _, _ => none

/-- `pure_duration = min(durations) if durations else 0` (line 818). -/
def pure_duration (moments : List Moment) : ℚ :=
  minList (durations moments)

/-- The segment extraction shared by `compute_averages` (lines 718-723),
`update_metrics`, `render_clip` and `aggregated_box` (lines 1069-1074):
snap `end` to `df["Time"].max()` when within the 0.05 tolerance, then keep
the rows with `start <= Time <= end` (both bounds inclusive). -/
def extractSegment (df : DataFrame) (st et : ℚ) : List Row :=
  let csv_max_time := df.maxTime
  let et2 := if ratAbs (et - csv_max_time) ≤ tol then csv_max_time else et
  df.rows.filter fun r => decide (st ≤ r.time) && decide (r.time ≤ et2)

/-- One moment's contribution in `compute_averages` (lines 707-727) and
`aggregated_box` (lines 1059-1080): parse start/end, require the dataset
file to exist and its read to succeed, extract the end-snapped segment and
keep it only when non-empty (the segment keeps the source columns). -/
def segContrib (store : Store) (m : Moment) : Option DataFrame :=
  match m.start_time, m.end_time with
  | some st, some et =>
    match store m.video_id with
    | .ok df =>
      let seg := extractSegment df st et
      if seg = [] then none else some ⟨df.cols, seg⟩
    | _ => none
  | _, _ => none

/-- `combined_df[col].mean()`: mean of the non-missing cells of a column
over a row collection (pandas skips NaN). -/
def meanCol (rows : List Row) (c : String) : ℚ :=
  let vs := rows.filterMap fun r => r.cells.lookup c
  vs.sum / vs.length

/-- `compute_averages` (lines 698-736): collect the non-empty end-snapped
segments, fail with the "no valid data" message when none remain, otherwise
report, per canonical measure present in the concatenated frame's columns,
the mean of that column. -/
def compute_averages (store : Store) (moments : List Moment) :
    Except String (List (String × ℚ)) :=
  let combined_segments := moments.filterMap (segContrib store)
  if combined_segments = [] then
    .error "No valid CSV data found for the selected moments."
  else
    let allCols := combined_segments.flatMap DataFrame.cols
    let allRows := combined_segments.flatMap DataFrame.rows
    .ok (ORDERED_MEASURES.filterMap fun c =>
      if c ∈ allCols then some (c, meanCol allRows c) else none)

/-- `np.linspace(a, b, n)`: `n` evenly spaced points from `a` to `b`, both
endpoints included. -/
def linspace (a b : ℚ) (n : ℕ) : List ℚ :=
  (List.range n).map fun (k : ℕ) => a + (b - a) * (k : ℚ) / ((n : ℚ) - 1)

/-- `np.interp(x, xp, fp)` at a single query point `x`, over the paired
`(xp, fp)` data (assumed ascending in `xp`): clamp to the edge values
outside the data range, linear interpolation inside. This models
`np.interp` only on non-empty data: on empty data `np.interp` raises
`ValueError`, uncaught in `aggregated_line` (the request would crash),
while this function returns 0 — so every aligned-averaging theorem carries
an explicit hypothesis that each included event's segment is non-empty,
restricting it to the domain where this model is faithful. -/
def interpPairs : List (ℚ × ℚ) → ℚ → ℚ
  | [], _ => 0
  | [(_, v)], _ => v
  | (t1, v1) :: (t2, v2) :: rest, x =>
    if x ≤ t1 then v1
    else if x ≤ t2 then v1 + (v2 - v1) * (x - t1) / (t2 - t1)
    else interpPairs ((t2, v2) :: rest) x

/-- The `(seg["RelativeTime"].values, seg[measure].values)` pairing fed to
`np.interp`, as (time, value) pairs. The source (line 879) passes the raw
column including NaN cells, which NaN-contaminate `np.interp`'s output
around them; a NaN (absent) cell has no ℚ value, so this pairing skips
such rows and agrees with the source exactly on columns without missing
cells (`completeCol`, see `colPairs_of_complete`: there it is the whole
column, row for row). Aligned-averaging theorems therefore hypothesise
`completeCol` for the measure under consideration. -/
def colPairs (rows : List Row) (meas : String) : List (ℚ × ℚ) :=
  rows.filterMap fun r => (r.cells.lookup meas).map fun v => (r.time, v)

/-- Whether a segment's column for `meas` has a value in every row, i.e.
the column carries no missing (NaN) cells. -/
def completeCol (rows : List Row) (meas : String) : Bool :=
  rows.all fun r => (r.cells.lookup meas).isSome

/-- `seg["RelativeTime"] = seg["Time"] - st` (line 862): re-express each
row's timestamp relative to the moment's own start. -/
def shiftRows (rows : List Row) (st : ℚ) : List Row :=
  rows.map fun r => { r with time := r.time - st }

/-- Outcome of the per-moment body of the `aggregated_line` loop. -/
inductive LineStep where
  | included : DataFrame → LineStep
  | excluded : String → LineStep
deriving DecidableEq, Repr

/-- The per-moment body of the `aggregated_line` loop (lines 836-865):
parse start/end (a parse failure skips the moment), skip silently when the
dataset file is missing, record the ad name as excluded when the read
raises; otherwise snap `et` to the available end (a dead store: `et` is not
used afterwards in this mode), exclude the moment when `pre_duration > 0 or
post_extra > 0` and the requested window `[st - pre_duration,
st + effective_post]` leaves `[available_start - tol, available_end + tol]`,
and otherwise include the window's rows re-based to the moment's start. -/
def lineMoment (store : Store) (pre_duration post_extra effective_post : ℚ)
    (m : Moment) : Option LineStep :=
  match m.start_time, m.end_time with
  | some st, some et =>
    match store m.video_id with
    | .missing => none
    | .readError => some (.excluded m.ad_name)
    | .ok df =>
      let available_start := df.minTime
      let available_end := df.maxTime
      let _et2 := if ratAbs (et - available_end) ≤ tol then available_end else et
      if (pre_duration > 0 ∨ post_extra > 0) ∧
          ((st - pre_duration) < (available_start - tol) ∨
           (st + effective_post) > (available_end + tol)) then
        some (.excluded m.ad_name)
      else
        let seg := df.rows.filter fun r =>
          decide ((st - pre_duration) ≤ r.time) &&
          decide (r.time ≤ (st + effective_post))
        some (.included ⟨df.cols, shiftRows seg st⟩)
  | _, _ => none

/-- A variant of `lineMoment` with the dead end-snapping assignment removed;
used to state that the snap never changes the aligned result. -/
def lineMomentNoSnap (store : Store) (pre_duration post_extra effective_post : ℚ)
    (m : Moment) : Option LineStep :=
  match m.start_time, m.end_time with
  | some st, some _ =>
    match store m.video_id with
    | .missing => none
    | .readError => some (.excluded m.ad_name)
    | .ok df =>
      let available_start := df.minTime
      let available_end := df.maxTime
      if (pre_duration > 0 ∨ post_extra > 0) ∧
          ((st - pre_duration) < (available_start - tol) ∨
           (st + effective_post) > (available_end + tol)) then
        some (.excluded m.ad_name)
      else
        let seg := df.rows.filter fun r =>
          decide ((st - pre_duration) ≤ r.time) &&
          decide (r.time ≤ (st + effective_post))
        some (.included ⟨df.cols, shiftRows seg st⟩)
  | _, _ => none

/-- The whole moment loop of `aggregated_line` (lines 836-865), building
`included_events` and `excluded_names` in moment order. -/
def lineScan (store : Store) (pre_duration post_extra effective_post : ℚ) :
    List Moment → List DataFrame × List String
  | [] => ([], [])
  | m :: rest =>
    let r := lineScan store pre_duration post_extra effective_post rest
    match lineMoment store pre_duration post_extra effective_post m with
    | none => r
    | some (.included ev) => (ev :: r.1, r.2)
    | some (.excluded nm) => (r.1, nm :: r.2)

/-- `lineScan` built on `lineMomentNoSnap` instead of `lineMoment`. -/
def lineScanNoSnap (store : Store) (pre_duration post_extra effective_post : ℚ) :
    List Moment → List DataFrame × List String
  | [] => ([], [])
  | m :: rest =>
    let r := lineScanNoSnap store pre_duration post_extra effective_post rest
    match lineMomentNoSnap store pre_duration post_extra effective_post m with
    | none => r
    | some (.included ev) => (ev :: r.1, r.2)
    | some (.excluded nm) => (r.1, nm :: r.2)

/-- `interp_data[measure]` (lines 871-881): for each included event whose
columns carry `meas`, the event's column interpolated onto the shared grid. -/
def interpData (events : List DataFrame) (grid : List ℚ) (meas : String) :
    List (List ℚ) :=
  events.filterMap fun ev =>
    if meas ∈ ev.cols then some (grid.map (interpPairs (colPairs ev.rows meas)))
    else none

/-- `averaged[measure]` (lines 884-891): `None` when no event contributed an
interpolated series, otherwise the pointwise arithmetic mean of the stacked
series (`np.mean(np.vstack(...), axis=0)`). -/
def averagedFor (events : List DataFrame) (grid : List ℚ) (meas : String) :
    Option (List ℚ) :=
  let d := interpData events grid meas
  if d = [] then none
  else some ((List.range grid.length).map fun i =>
    (d.map fun l => l.getD i 0).sum / d.length)

/-- Python `int(...)` on a rational: truncation toward zero. -/
def pyInt (q : ℚ) : ℤ := if 0 ≤ q then ⌊q⌋ else ⌈q⌉

/-- The `Time(ms)` CSV column (line 994): `int(common_time[i] * 1000)`, one
entry per grid point. -/
def timeMsColumn (grid : List ℚ) : List ℤ :=
  grid.map fun t => pyInt (t * 1000)

/-- The caller-visible output of `aggregated_line`: the shared grid, the
per-measure averaged series keyed in canonical order (`none` = measure
absent), the excluded ad names, and the CSV `Time(ms)` column. -/
structure LineResult where
  common_time : List ℚ
  averaged : List (String × Option (List ℚ))
  excluded_names : List String
  time_ms : List ℤ
deriving DecidableEq, Repr

/-- `aggregated_line` (lines 824-1001, data part): build the shared
100-point grid over `[-pre_duration, pure_duration + post_extra]`, run the
moment loop, fail with the "no valid data" message when nothing was
included, otherwise average per measure and emit the CSV time column. -/
def aggregated_line (store : Store) (moments : List Moment)
    (pre_duration post_extra pure_dur : ℚ) : Except String LineResult :=
  let effective_post := pure_dur + post_extra
  let common_time := linspace (-pre_duration) effective_post 100
  let scan := lineScan store pre_duration post_extra effective_post moments
  if scan.1 = [] then
    .error "No valid CSV data for graphing after exclusions."
  else
    .ok { common_time := common_time
          averaged := ORDERED_MEASURES.map fun meas =>
            (meas, averagedFor scan.1 common_time meas)
          excluded_names := scan.2
          time_ms := timeMsColumn common_time }

/-- `aggregated_line` rebuilt on the no-snap scan. -/
def aggregated_line_nosnap (store : Store) (moments : List Moment)
    (pre_duration post_extra pure_dur : ℚ) : Except String LineResult :=
  let effective_post := pure_dur + post_extra
  let common_time := linspace (-pre_duration) effective_post 100
  let scan := lineScanNoSnap store pre_duration post_extra effective_post moments
  if scan.1 = [] then
    .error "No valid CSV data for graphing after exclusions."
  else
    .ok { common_time := common_time
          averaged := ORDERED_MEASURES.map fun meas =>
            (meas, averagedFor scan.1 common_time meas)
          excluded_names := scan.2
          time_ms := timeMsColumn common_time }

/-- The line branch of `aggregated_graphs` (lines 810-820): compute
`pure_duration` from the moments, then run `aggregated_line`. -/
def aggregated_graphs_line (store : Store) (moments : List Moment)
    (pre_duration post_extra : ℚ) : Except String LineResult :=
  aggregated_line store moments pre_duration post_extra (pure_duration moments)

/-- `seg[measure].dropna().tolist()`: the non-missing cells of a column, in
row order. -/
def dropnaCol (rows : List Row) (meas : String) : List ℚ :=
  rows.filterMap fun r => r.cells.lookup meas

/-- The `box_data` accumulation loop of `aggregated_box` (lines 1058-1080):
start from the empty dict over `ORDERED_MEASURES` and, per moment with a
non-empty end-snapped segment, extend each canonical measure present in the
segment's columns with the segment's non-missing values. -/
def box_loop (store : Store) : List Moment → (String → List ℚ) → String → List ℚ
  | [], acc => acc
  | m :: rest, acc =>
    let acc2 : String → List ℚ :=
      match segContrib store m with
      | none => acc
      | some s => fun meas =>
        if meas ∈ ORDERED_MEASURES ∧ meas ∈ s.cols then
          acc meas ++ dropnaCol s.rows meas
        else acc meas
    box_loop store rest acc2

/-- `box_data[measure]` after the whole `aggregated_box` moment loop. -/
def box_data (store : Store) (moments : List Moment) (meas : String) : List ℚ :=
  box_loop store moments (fun _ => []) meas

/-- Spec-side description of the pooled sample (§4.3 of the specification):
per measure, the concatenation, across all non-empty extracted segments
whose columns carry the measure, of that measure's non-missing values. -/
def specPooled (store : Store) (moments : List Moment) (meas : String) : List ℚ :=
  (moments.filterMap (segContrib store)).flatMap fun s =>
    if meas ∈ s.cols then dropnaCol s.rows meas else []

/-- The caller-visible data of `aggregated_box`: the CSV data rows
(measure, pooled values) for measures with a non-empty pool, in canonical
order, and the `max_len` padding width of the CSV header. -/
structure BoxResult where
  data : List (String × List ℚ)
  max_len : ℕ
deriving DecidableEq, Repr

/-- `aggregated_box` (lines 1053-1155, data part): pool the values, keep one
CSV row per measure with a non-empty pool, and compute
`max_len = max((len(v) for v in box_data.values() if v), default=0)`. -/
def aggregated_box (store : Store) (moments : List Moment) : BoxResult :=
  { data := ORDERED_MEASURES.filterMap fun meas =>
      let v := box_data store moments meas
      if v = [] then none else some (meas, v)
    max_len :=
      ((ORDERED_MEASURES.map fun meas => box_data store moments meas).filter
        fun v => decide (v ≠ [])).foldr (fun v acc => max v.length acc) 0 }

/-- `l.mean()` of pandas on the non-missing values of a column sample. -/
def mean (l : List ℚ) : ℚ := l.sum / l.length

/-- The sample variance underlying pandas `Series.std()` (`ddof=1`): the
std is its square root, so the std is undefined (NaN) exactly when this is
`none`, and is `0` exactly when this is `some 0`. Undefined for samples of
fewer than two values; otherwise the squared deviations from the mean
divided by `n - 1`. -/
def sampleVar (l : List ℚ) : Option ℚ :=
  if l.length ≤ 1 then none
  else some ((l.map fun x => (x - mean l) ^ 2).sum / ((l.length : ℚ) - 1))

/-- `segment[col].min()` / `.max()` / `.mean()` / `.std()` as computed at
`update_metrics` (lines 522-531), applied to a pooled value sample: the
last component is the sample variance (see `sampleVar`). -/
def pooledStats (l : List ℚ) : ℚ × ℚ × ℚ × Option ℚ :=
  (minList l, maxList l, mean l, sampleVar l)

/-- The excluded-names list of an `aggregated_line` outcome (empty on the
error outcome). -/
def lineExcluded : Except String LineResult → List String
  | .ok res => res.excluded_names
  | .error _ => []

/-- The pointwise relation used for end-time independence: the two moment
lists agree on videos, starts and ad names, and each pair of end times
parses on both sides or on neither (their values may differ freely). -/
def endsCompat : List Moment → List Moment → Bool
  | [], [] => true
  | m1 :: r1, m2 :: r2 =>
    decide (m1.video_id = m2.video_id) && decide (m1.start_time = m2.start_time) &&
    decide (m1.ad_name = m2.ad_name) &&
    (m1.end_time.isSome == m2.end_time.isSome) && endsCompat r1 r2
  | _, _ => false

/-- The shared grid of an `aggregated_line` outcome (empty on error). -/
def lineGrid : Except String LineResult → List ℚ
  | .ok res => res.common_time
  | .error _ => []

/-- The averaged series of one measure in an `aggregated_line` outcome
(`none` on error, on an unknown key, or when the measure had no
contributing events). -/
def lineAveragedAt (r : Except String LineResult) (meas : String) :
    Option (List ℚ) :=
  match r with
  | .ok res => (res.averaged.lookup meas).join
  | .error _ => none

/-- The CSV `Time(ms)` column of an `aggregated_line` outcome. -/
def lineTimeMs : Except String LineResult → List ℤ
  | .ok res => res.time_ms
  | .error _ => []

/-! ### Helper lemmas -/

theorem foldl_min_le_init (xs : List ℚ) : ∀ a : ℚ, xs.foldl min a ≤ a := by
  induction xs with
  | nil => intro a; simp
  | cons x xs ih =>
    intro a
    exact le_trans (ih (min a x)) (min_le_left a x)

theorem foldl_min_le_mem (xs : List ℚ) : ∀ a : ℚ, ∀ x ∈ xs, xs.foldl min a ≤ x := by
  induction xs with
  | nil => intro a x hx; simp at hx
  | cons y ys ih =>
    intro a x hx
    rcases List.mem_cons.1 hx with h | h
    · subst h
      exact le_trans (foldl_min_le_init ys (min a x)) (min_le_right a x)
    · exact ih (min a y) x h

theorem foldl_min_mem (xs : List ℚ) : ∀ a : ℚ, xs.foldl min a = a ∨ xs.foldl min a ∈ xs := by
  induction xs with
  | nil => intro a; left; rfl
  | cons y ys ih =>
    intro a
    rcases ih (min a y) with h | h
    · rcases min_choice a y with hc | hc
      · left; simpa [hc] using h
      · right; rw [List.foldl_cons, h, hc]; exact List.mem_cons_self y ys
    · right; exact List.mem_cons_of_mem y h

theorem minList_le {l : List ℚ} : ∀ x ∈ l, minList l ≤ x := by
  cases l with
  | nil => intro x hx; simp at hx
  | cons y ys =>
    intro x hx
    rcases List.mem_cons.1 hx with h | h
    · subst h; exact foldl_min_le_init ys x
    · exact foldl_min_le_mem ys y x h

theorem minList_mem {l : List ℚ} (h : l ≠ []) : minList l ∈ l := by
  cases l with
  | nil => exact absurd rfl h
  | cons y ys =>
    rcases foldl_min_mem ys y with h' | h'
    · rw [minList, h']; exact List.mem_cons_self y ys
    · exact List.mem_cons_of_mem y h'

theorem minList_perm {l₁ l₂ : List ℚ} (h : l₁.Perm l₂) : minList l₁ = minList l₂ := by
  rcases eq_or_ne l₁ [] with h1 | h1
  · subst h1; rw [List.nil_perm.1 h]
  · have h2 : l₂ ≠ [] := by
      intro h2; subst h2; exact h1 (List.perm_nil.1 h)
    exact le_antisymm
      (minList_le _ (h.mem_iff.2 (minList_mem h2)))
      (minList_le _ (h.mem_iff.1 (minList_mem h1)))

theorem foldl_max_init_le (xs : List ℚ) : ∀ a : ℚ, a ≤ xs.foldl max a := by
  induction xs with
  | nil => intro a; simp
  | cons x xs ih =>
    intro a
    exact le_trans (le_max_left a x) (ih (max a x))

theorem foldl_max_mem_le (xs : List ℚ) : ∀ a : ℚ, ∀ x ∈ xs, x ≤ xs.foldl max a := by
  induction xs with
  | nil => intro a x hx; simp at hx
  | cons y ys ih =>
    intro a x hx
    rcases List.mem_cons.1 hx with h | h
    · subst h
      exact le_trans (le_max_right a x) (foldl_max_init_le ys (max a x))
    · exact ih (max a y) x h

theorem foldl_max_mem (xs : List ℚ) : ∀ a : ℚ, xs.foldl max a = a ∨ xs.foldl max a ∈ xs := by
  induction xs with
  | nil => intro a; left; rfl
  | cons y ys ih =>
    intro a
    rcases ih (max a y) with h | h
    · rcases max_choice a y with hc | hc
      · left; simpa [hc] using h
      · right; rw [List.foldl_cons, h, hc]; exact List.mem_cons_self y ys
    · right; exact List.mem_cons_of_mem y h

theorem le_maxList {l : List ℚ} : ∀ x ∈ l, x ≤ maxList l := by
  cases l with
  | nil => intro x hx; simp at hx
  | cons y ys =>
    intro x hx
    rcases List.mem_cons.1 hx with h | h
    · subst h; exact foldl_max_init_le ys x
    · exact foldl_max_mem_le ys y x h

theorem maxList_mem {l : List ℚ} (h : l ≠ []) : maxList l ∈ l := by
  cases l with
  | nil => exact absurd rfl h
  | cons y ys =>
    rcases foldl_max_mem ys y with h' | h'
    · rw [maxList, h']; exact List.mem_cons_self y ys
    · exact List.mem_cons_of_mem y h'

theorem maxList_perm {l₁ l₂ : List ℚ} (h : l₁.Perm l₂) : maxList l₁ = maxList l₂ := by
  rcases eq_or_ne l₁ [] with h1 | h1
  · subst h1; rw [List.nil_perm.1 h]
  · have h2 : l₂ ≠ [] := by
      intro h2; subst h2; exact h1 (List.perm_nil.1 h)
    exact le_antisymm
      (le_maxList _ (h.mem_iff.1 (maxList_mem h1)))
      (le_maxList _ (h.mem_iff.2 (maxList_mem h2)))

theorem minList_le_maxList {l : List ℚ} (h : l ≠ []) : minList l ≤ maxList l :=
  le_trans (minList_le _ (minList_mem h)) (le_maxList _ (minList_mem h))

theorem lookup_map_self {β : Type} (l : List String) (f : String → β) {m : String}
    (hm : m ∈ l) : (l.map fun x => (x, f x)).lookup m = some (f m) := by
  induction l with
  | nil => simp at hm
  | cons a t ih =>
    by_cases h : m = a
    · subst h; simp [List.lookup]
    · have hm' : m ∈ t := by
        rcases List.mem_cons.1 hm with h' | h'
        · exact absurd h' h
        · exact h'
      have hb : (m == a) = false := by simpa using h
      simpa [List.lookup, hb] using ih hm'

theorem getD_map_of_lt {α β : Type} (l : List α) (f : α → β) (i : ℕ)
    (h : i < l.length) (d : β) (d' : α) :
    (l.map f).getD i d = f (l.getD i d') := by
  rw [List.getD_eq_getElem?_getD, List.getD_eq_getElem?_getD,
    List.getElem?_map, List.getElem?_eq_getElem h]
  rfl

theorem linspace_length (a b : ℚ) (n : ℕ) : (linspace a b n).length = n := by
  rw [linspace, List.length_map, List.length_range]

theorem linspace_getD (a b : ℚ) {n i : ℕ} (h : i < n) :
    (linspace a b n).getD i 0 = a + (b - a) * (i : ℚ) / ((n : ℚ) - 1) := by
  rw [linspace, List.getD_eq_getElem?_getD, List.getElem?_map,
    List.getElem?_range h]
  rfl

theorem abs_sub_pyInt_lt (q : ℚ) : |q - (pyInt q : ℚ)| < 1 := by
  rw [pyInt]
  split
  · rw [abs_of_nonneg (sub_nonneg.2 (Int.floor_le q))]
    have := Int.lt_floor_add_one q
    push_cast at this ⊢
    linarith
  · rw [abs_of_nonpos (sub_nonpos.2 (Int.le_ceil q))]
    have := Int.ceil_lt_add_one q
    push_cast at this ⊢
    linarith

theorem interpData_eq (events : List DataFrame) (grid : List ℚ) (meas : String) :
    interpData events grid meas =
      (events.filter fun ev => decide (meas ∈ ev.cols)).map
        fun ev => grid.map (interpPairs (colPairs ev.rows meas)) := by
  induction events with
  | nil => rfl
  | cons e es ih =>
    by_cases h : meas ∈ e.cols
    · simpa [interpData, List.filterMap_cons, List.filter_cons, h] using ih
    · simpa [interpData, List.filterMap_cons, List.filter_cons, h] using ih

theorem averagedFor_char (events : List DataFrame) (grid : List ℚ) (meas : String) :
    averagedFor events grid meas =
      (if (events.filter fun ev => decide (meas ∈ ev.cols)) = [] then none
       else some ((List.range grid.length).map fun i =>
         ((events.filter fun ev => decide (meas ∈ ev.cols)).map
             fun ev => interpPairs (colPairs ev.rows meas) (grid.getD i 0)).sum /
           ((events.filter fun ev => decide (meas ∈ ev.cols)).length : ℚ))) := by
  rw [averagedFor, interpData_eq]
  by_cases hc : (events.filter fun ev => decide (meas ∈ ev.cols)) = []
  · simp [hc]
  · rw [if_neg (by simpa using hc), if_neg hc]
    congr 1
    apply List.map_congr_left
    intro i hi
    have hi' : i < grid.length := List.mem_range.1 hi
    rw [List.map_map, List.length_map]
    have he :
        ((events.filter fun ev => decide (meas ∈ ev.cols)).map
          ((fun l => l.getD i 0) ∘ fun ev =>
            grid.map (interpPairs (colPairs ev.rows meas)))) =
        ((events.filter fun ev => decide (meas ∈ ev.cols)).map
          fun ev => interpPairs (colPairs ev.rows meas) (grid.getD i 0)) :=
      List.map_congr_left fun ev _ => getD_map_of_lt grid _ i hi' 0 0
    rw [he]

theorem colPairs_of_complete (rows : List Row) (meas : String)
    (h : completeCol rows meas = true) :
    colPairs rows meas =
      rows.map fun r => (r.time, (r.cells.lookup meas).getD 0) := by
  induction rows with
  | nil => rfl
  | cons r rs ih =>
    rw [completeCol, List.all_cons, Bool.and_eq_true] at h
    obtain ⟨h1, h2⟩ := h
    obtain ⟨v, hv⟩ := Option.isSome_iff_exists.1 h1
    rw [colPairs, List.filterMap_cons, List.map_cons, hv]
    simp only [Option.map_some', Option.getD_some]
    exact congrArg (List.cons (r.time, v)) (ih h2)

theorem specPooled_cons (store : Store) (m : Moment) (rest : List Moment)
    (meas : String) :
    specPooled store (m :: rest) meas =
      (match segContrib store m with
       | none => []
       | some s => if meas ∈ s.cols then dropnaCol s.rows meas else []) ++
        specPooled store rest meas := by
  rw [specPooled, List.filterMap_cons]
  cases segContrib store m with
  | none => simp [specPooled]
  | some s => simp [specPooled, List.flatMap_cons]

theorem box_loop_eq (store : Store) (ms : List Moment) :
    ∀ acc : String → List ℚ, ∀ meas ∈ ORDERED_MEASURES,
      box_loop store ms acc meas = acc meas ++ specPooled store ms meas := by
  induction ms with
  | nil => intro acc meas _; simp [box_loop, specPooled]
  | cons m rest ih =>
    intro acc meas hm
    rw [box_loop, specPooled_cons]
    cases hsc : segContrib store m with
    | none => simpa using ih acc meas hm
    | some s =>
      by_cases hcol : meas ∈ s.cols
      · simpa [hm, hcol, List.append_assoc] using
          ih (fun meas => if meas ∈ ORDERED_MEASURES ∧ meas ∈ s.cols then
            acc meas ++ dropnaCol s.rows meas else acc meas) meas hm
      · simpa [hm, hcol] using
          ih (fun meas => if meas ∈ ORDERED_MEASURES ∧ meas ∈ s.cols then
            acc meas ++ dropnaCol s.rows meas else acc meas) meas hm

theorem box_data_eq_specPooled (store : Store) (ms : List Moment) {meas : String}
    (hm : meas ∈ ORDERED_MEASURES) :
    box_data store ms meas = specPooled store ms meas := by
  simpa using box_loop_eq store ms (fun _ => []) meas hm

theorem specPooled_perm (store : Store) {ms₁ ms₂ : List Moment}
    (h : ms₁.Perm ms₂) (meas : String) :
    (specPooled store ms₁ meas).Perm (specPooled store ms₂ meas) :=
  (h.filterMap _).flatMap_right _

theorem mean_perm {l₁ l₂ : List ℚ} (h : l₁.Perm l₂) : mean l₁ = mean l₂ := by
  rw [mean, mean, h.sum_eq, h.length_eq]

theorem sampleVar_perm {l₁ l₂ : List ℚ} (h : l₁.Perm l₂) :
    sampleVar l₁ = sampleVar l₂ := by
  have hm : mean l₁ = mean l₂ := mean_perm h
  have hs : (l₁.map fun x => (x - mean l₂) ^ 2).sum =
      (l₂.map fun x => (x - mean l₂) ^ 2).sum :=
    (h.map fun x => (x - mean l₂) ^ 2).sum_eq
  rw [sampleVar, sampleVar, h.length_eq, hm, hs]

theorem aggregated_line_of_ne (store : Store) (ms : List Moment)
    (pre_duration post_extra pure_dur : ℚ)
    (h : (lineScan store pre_duration post_extra (pure_dur + post_extra) ms).1 ≠ []) :
    aggregated_line store ms pre_duration post_extra pure_dur =
      .ok { common_time := linspace (-pre_duration) (pure_dur + post_extra) 100
            averaged := ORDERED_MEASURES.map fun meas =>
              (meas, averagedFor
                (lineScan store pre_duration post_extra (pure_dur + post_extra) ms).1
                (linspace (-pre_duration) (pure_dur + post_extra) 100) meas)
            excluded_names :=
              (lineScan store pre_duration post_extra (pure_dur + post_extra) ms).2
            time_ms :=
              timeMsColumn (linspace (-pre_duration) (pure_dur + post_extra) 100) } := by
  rw [aggregated_line]
  exact if_neg h

theorem aggregated_line_of_empty (store : Store) (ms : List Moment)
    (pre_duration post_extra pure_dur : ℚ)
    (h : (lineScan store pre_duration post_extra (pure_dur + post_extra) ms).1 = []) :
    aggregated_line store ms pre_duration post_extra pure_dur =
      .error "No valid CSV data for graphing after exclusions." := by
  rw [aggregated_line]
  simp only [h, if_true]

theorem aggregated_line_isOk (store : Store) (ms : List Moment)
    (pre_duration post_extra pure_dur : ℚ) :
    (aggregated_line store ms pre_duration post_extra pure_dur).isOk = true ↔
      (lineScan store pre_duration post_extra (pure_dur + post_extra) ms).1 ≠ [] := by
  by_cases h : (lineScan store pre_duration post_extra (pure_dur + post_extra) ms).1 = []
  · rw [aggregated_line_of_empty store ms _ _ _ h]
    simp [Except.isOk, Except.toBool, h]
  · rw [aggregated_line_of_ne store ms _ _ _ h]
    simp [Except.isOk, Except.toBool, h]

theorem lineGrid_ok (store : Store) (ms : List Moment)
    (pre_duration post_extra pure_dur : ℚ)
    (h : (lineScan store pre_duration post_extra (pure_dur + post_extra) ms).1 ≠ []) :
    lineGrid (aggregated_line store ms pre_duration post_extra pure_dur) =
      linspace (-pre_duration) (pure_dur + post_extra) 100 := by
  rw [aggregated_line_of_ne store ms _ _ _ h, lineGrid]

theorem lineTimeMs_ok (store : Store) (ms : List Moment)
    (pre_duration post_extra pure_dur : ℚ)
    (h : (lineScan store pre_duration post_extra (pure_dur + post_extra) ms).1 ≠ []) :
    lineTimeMs (aggregated_line store ms pre_duration post_extra pure_dur) =
      timeMsColumn (linspace (-pre_duration) (pure_dur + post_extra) 100) := by
  rw [aggregated_line_of_ne store ms _ _ _ h, lineTimeMs]

theorem lineExcluded_ok (store : Store) (ms : List Moment)
    (pre_duration post_extra pure_dur : ℚ)
    (h : (lineScan store pre_duration post_extra (pure_dur + post_extra) ms).1 ≠ []) :
    lineExcluded (aggregated_line store ms pre_duration post_extra pure_dur) =
      (lineScan store pre_duration post_extra (pure_dur + post_extra) ms).2 := by
  rw [aggregated_line_of_ne store ms _ _ _ h, lineExcluded]

theorem lineAveragedAt_ok (store : Store) (ms : List Moment)
    (pre_duration post_extra pure_dur : ℚ) {meas : String}
    (h : (lineScan store pre_duration post_extra (pure_dur + post_extra) ms).1 ≠ [])
    (hm : meas ∈ ORDERED_MEASURES) :
    lineAveragedAt (aggregated_line store ms pre_duration post_extra pure_dur) meas =
      averagedFor (lineScan store pre_duration post_extra (pure_dur + post_extra) ms).1
        (linspace (-pre_duration) (pure_dur + post_extra) 100) meas := by
  rw [aggregated_line_of_ne store ms _ _ _ h, lineAveragedAt]
  rw [lookup_map_self ORDERED_MEASURES _ hm]
  rfl

theorem lineMoment_eq_nosnap (store : Store) (pre_duration post_extra effective_post : ℚ)
    (m : Moment) :
    lineMoment store pre_duration post_extra effective_post m =
      lineMomentNoSnap store pre_duration post_extra effective_post m := by
  obtain ⟨v, st, et, ad⟩ := m
  cases st with
  | none => rfl
  | some st =>
    cases et with
    | none => rfl
    | some et => cases store v <;> rfl

theorem lineScan_eq_nosnap (store : Store) (pre_duration post_extra effective_post : ℚ) :
    ∀ ms : List Moment,
      lineScan store pre_duration post_extra effective_post ms =
        lineScanNoSnap store pre_duration post_extra effective_post ms := by
  intro ms
  induction ms with
  | nil => rfl
  | cons m rest ih =>
    rw [lineScan, lineScanNoSnap, ih, lineMoment_eq_nosnap]

theorem aggregated_line_eq_nosnap (store : Store) (ms : List Moment)
    (pre_duration post_extra pure_dur : ℚ) :
    aggregated_line store ms pre_duration post_extra pure_dur =
      aggregated_line_nosnap store ms pre_duration post_extra pure_dur := by
  rw [aggregated_line, aggregated_line_nosnap, lineScan_eq_nosnap]

theorem lineMomentNoSnap_end_irrel (store : Store)
    (pre_duration post_extra effective_post : ℚ) (m₁ m₂ : Moment)
    (hv : m₁.video_id = m₂.video_id) (hs : m₁.start_time = m₂.start_time)
    (ha : m₁.ad_name = m₂.ad_name)
    (he : m₁.end_time.isSome = m₂.end_time.isSome) :
    lineMomentNoSnap store pre_duration post_extra effective_post m₁ =
      lineMomentNoSnap store pre_duration post_extra effective_post m₂ := by
  obtain ⟨v₁, st₁, et₁, ad₁⟩ := m₁
  obtain ⟨v₂, st₂, et₂, ad₂⟩ := m₂
  simp only at hv hs ha he
  subst hv; subst hs; subst ha
  cases st₁ with
  | none => rfl
  | some s =>
    cases et₁ with
    | none =>
      cases et₂ with
      | none => rfl
      | some e => simp [Option.isSome] at he
    | some e =>
      cases et₂ with
      | none => simp [Option.isSome] at he
      | some e' => rfl

theorem lineScanNoSnap_compat (store : Store)
    (pre_duration post_extra effective_post : ℚ) :
    ∀ ms₁ ms₂ : List Moment, endsCompat ms₁ ms₂ = true →
      lineScanNoSnap store pre_duration post_extra effective_post ms₁ =
        lineScanNoSnap store pre_duration post_extra effective_post ms₂ := by
  intro ms₁
  induction ms₁ with
  | nil =>
    intro ms₂ h
    cases ms₂ with
    | nil => rfl
    | cons m2 rest2 => simp [endsCompat] at h
  | cons m rest ih =>
    intro ms₂ h
    cases ms₂ with
    | nil => simp [endsCompat] at h
    | cons m2 rest2 =>
      simp only [endsCompat, Bool.and_eq_true, decide_eq_true_eq, beq_iff_eq] at h
      obtain ⟨⟨⟨⟨hv, hs⟩, ha⟩, he⟩, hrest⟩ := h
      rw [lineScanNoSnap, lineScanNoSnap, ih rest2 hrest,
        lineMomentNoSnap_end_irrel store pre_duration post_extra effective_post
          m m2 hv hs ha he]

theorem lineMoment_missing (store : Store)
    (pre_duration post_extra effective_post : ℚ) (m : Moment) {st et : ℚ}
    (hst : m.start_time = some st) (het : m.end_time = some et)
    (hsv : store m.video_id = .missing) :
    lineMoment store pre_duration post_extra effective_post m = none := by
  obtain ⟨v, s, e, ad⟩ := m
  simp only at hst het hsv
  subst hst; subst het
  simp [lineMoment, hsv]

theorem lineMoment_readError (store : Store)
    (pre_duration post_extra effective_post : ℚ) (m : Moment) {st et : ℚ}
    (hst : m.start_time = some st) (het : m.end_time = some et)
    (hsv : store m.video_id = .readError) :
    lineMoment store pre_duration post_extra effective_post m =
      some (.excluded m.ad_name) := by
  obtain ⟨v, s, e, ad⟩ := m
  simp only at hst het hsv
  subst hst; subst het
  simp [lineMoment, hsv]

theorem lineMoment_unparseable (store : Store)
    (pre_duration post_extra effective_post : ℚ) (m : Moment)
    (h : m.start_time = none ∨ m.end_time = none) :
    lineMoment store pre_duration post_extra effective_post m = none := by
  obtain ⟨v, s, e, ad⟩ := m
  simp only at h
  rcases h with h | h
  · subst h; rfl
  · subst h; cases s <;> rfl

theorem lineMoment_ok_excluded (store : Store)
    (pre_duration post_extra effective_post : ℚ) (m : Moment) {st et : ℚ}
    {df : DataFrame}
    (hst : m.start_time = some st) (het : m.end_time = some et)
    (hsv : store m.video_id = .ok df)
    (hcond : (pre_duration > 0 ∨ post_extra > 0) ∧
      ((st - pre_duration) < (df.minTime - tol) ∨
       (st + effective_post) > (df.maxTime + tol))) :
    lineMoment store pre_duration post_extra effective_post m =
      some (.excluded m.ad_name) := by
  obtain ⟨v, s, e, ad⟩ := m
  simp only at hst het hsv
  subst hst; subst het
  simp [lineMoment, hsv, hcond]

theorem lineMoment_ok_included (store : Store)
    (pre_duration post_extra effective_post : ℚ) (m : Moment) {st et : ℚ}
    {df : DataFrame}
    (hst : m.start_time = some st) (het : m.end_time = some et)
    (hsv : store m.video_id = .ok df)
    (hcond : ¬((pre_duration > 0 ∨ post_extra > 0) ∧
      ((st - pre_duration) < (df.minTime - tol) ∨
       (st + effective_post) > (df.maxTime + tol)))) :
    lineMoment store pre_duration post_extra effective_post m =
      some (.included ⟨df.cols,
        shiftRows (df.rows.filter fun r =>
          decide ((st - pre_duration) ≤ r.time) &&
          decide (r.time ≤ (st + effective_post))) st⟩) := by
  obtain ⟨v, s, e, ad⟩ := m
  simp only at hst het hsv
  subst hst; subst het
  simp [lineMoment, hsv, hcond]

theorem lineScan_cons (store : Store)
    (pre_duration post_extra effective_post : ℚ) (m : Moment) (rest : List Moment) :
    lineScan store pre_duration post_extra effective_post (m :: rest) =
      match lineMoment store pre_duration post_extra effective_post m with
      | none => lineScan store pre_duration post_extra effective_post rest
      | some (.included ev) =>
        ((lineScan store pre_duration post_extra effective_post rest).1.cons ev,
         (lineScan store pre_duration post_extra effective_post rest).2)
      | some (.excluded nm) =>
        ((lineScan store pre_duration post_extra effective_post rest).1,
         (lineScan store pre_duration post_extra effective_post rest).2.cons nm) := by
  rw [lineScan]

/-! ### Concrete fixtures for witnesses and counterexamples -/

/-- The "A video" of the specification's end-to-end example: Engagement
values [0.2, 0.4, 0.6] at t = [0, 1, 2]. -/
def dfA : DataFrame :=
  ⟨["Engagement"],
   [⟨0, [("Engagement", 1/5)]⟩, ⟨1, [("Engagement", 2/5)]⟩,
    ⟨2, [("Engagement", 3/5)]⟩]⟩

/-- The "B video" of the specification's end-to-end example: Engagement
values [0.3, 0.5, 0.7] at t = [0, 1, 2]. -/
def dfB : DataFrame :=
  ⟨["Engagement"],
   [⟨0, [("Engagement", 3/10)]⟩, ⟨1, [("Engagement", 1/2)]⟩,
    ⟨2, [("Engagement", 7/10)]⟩]⟩

/-- A store holding exactly the two example videos. -/
def storeAB : Store := fun v =>
  if v = "A" then .ok dfA else if v = "B" then .ok dfB else .missing

/-- The "A" moment of the example: start 0, end 2. -/
def momA : Moment := ⟨"A", some 0, some 2, "AdA"⟩

/-- The "B" moment of the example: start 0, end 2. -/
def momB : Moment := ⟨"B", some 0, some 2, "AdB"⟩

/-! ### C3 — end-snapping in segment extraction -/

/-- C3: for every series and every extraction, if
`|end - series.max_time| <= 0.05` then `end` is treated as exactly
`series.max_time` before the inclusive `[start, end]` selection, and
extracting with `end = series.max_time + 0.04` yields exactly the same
segment as extracting with `end = series.max_time`. -/
theorem extract_end_snapping (df : DataFrame) (st et : ℚ) (_hrows : df.rows ≠ [])
    (hsnap : ratAbs (et - df.maxTime) ≤ tol) :
    extractSegment df st et =
      df.rows.filter (fun r => decide (st ≤ r.time) && decide (r.time ≤ df.maxTime)) ∧
    extractSegment df st (df.maxTime + 1/25) = extractSegment df st df.maxTime := by
  have h4 : ratAbs (df.maxTime + 1/25 - df.maxTime) ≤ tol := by
    have he : df.maxTime + 1/25 - df.maxTime = 1/25 := by ring
    rw [he, ratAbs_eq_abs, abs_of_nonneg (by norm_num : (0:ℚ) ≤ 1/25), tol]
    norm_num
  have h0 : ratAbs (df.maxTime - df.maxTime) ≤ tol := by
    rw [sub_self, ratAbs_eq_abs, abs_zero, tol]
    norm_num
  refine ⟨?_, ?_⟩
  · rw [extractSegment]
    rw [if_pos hsnap]
  · rw [extractSegment, extractSegment]
    rw [if_pos h4, if_pos h0]

/-- Witness for C3 at the example series `dfA` (max time 2) with
`end = 2 + 1/25`. -/
theorem extract_end_snapping_witness :
    dfA.rows ≠ [] ∧ ratAbs ((2 + 1/25 : ℚ) - dfA.maxTime) ≤ tol ∧
    (extractSegment dfA 0 (2 + 1/25) =
      dfA.rows.filter (fun r => decide ((0:ℚ) ≤ r.time) && decide (r.time ≤ dfA.maxTime)) ∧
     extractSegment dfA 0 (dfA.maxTime + 1/25) = extractSegment dfA 0 dfA.maxTime) :=
  ⟨by decide, of_decide_eq_true (by with_unfolding_all rfl),
   extract_end_snapping dfA 0 (2 + 1/25) (by decide)
     (of_decide_eq_true (by with_unfolding_all rfl))⟩

/-! ### C4 — the shared grid of aligned mode -/

/-- C4: in aligned (line) mode, `pure_duration` is the minimum of
`end - start` over the moments with parseable start/end, `effective_post =
pure_duration + post_extra`, and the shared grid is exactly 100 evenly
spaced points over `[-pre_duration, effective_post]` (100 points, endpoints
`-pre_duration` and `effective_post`, consecutive differences all equal);
when `pre_duration = post_extra = 0` the grid spans exactly
`[0, pure_duration]`. -/
theorem aligned_shared_grid (store : Store) (ms : List Moment)
    (pre_duration post_extra : ℚ) (hd : durations ms ≠ [])
    (hok : (aggregated_graphs_line store ms pre_duration post_extra).isOk = true) :
    (pure_duration ms ∈ durations ms ∧ ∀ d ∈ durations ms, pure_duration ms ≤ d) ∧
    lineGrid (aggregated_graphs_line store ms pre_duration post_extra) =
      linspace (-pre_duration) (pure_duration ms + post_extra) 100 ∧
    (lineGrid (aggregated_graphs_line store ms pre_duration post_extra)).length = 100 ∧
    (lineGrid (aggregated_graphs_line store ms pre_duration post_extra)).getD 0 0 =
      -pre_duration ∧
    (lineGrid (aggregated_graphs_line store ms pre_duration post_extra)).getD 99 0 =
      pure_duration ms + post_extra ∧
    (∀ i : ℕ, i + 1 < 100 →
      (lineGrid (aggregated_graphs_line store ms pre_duration post_extra)).getD (i+1) 0 -
        (lineGrid (aggregated_graphs_line store ms pre_duration post_extra)).getD i 0 =
        (pre_duration + (pure_duration ms + post_extra)) / 99) ∧
    (pre_duration = 0 → post_extra = 0 →
      (lineGrid (aggregated_graphs_line store ms pre_duration post_extra)).getD 0 0 = 0 ∧
      (lineGrid (aggregated_graphs_line store ms pre_duration post_extra)).getD 99 0 =
        pure_duration ms) := by
  rw [aggregated_graphs_line] at hok ⊢
  have hscan :
      (lineScan store pre_duration post_extra (pure_duration ms + post_extra) ms).1 ≠ [] :=
    (aggregated_line_isOk store ms pre_duration post_extra (pure_duration ms)).1 hok
  have hg := lineGrid_ok store ms pre_duration post_extra (pure_duration ms) hscan
  rw [hg]
  have h0 : (linspace (-pre_duration) (pure_duration ms + post_extra) 100).getD 0 0 =
      -pre_duration := by
    rw [linspace_getD _ _ (by norm_num : (0:ℕ) < 100)]
    push_cast
    ring
  have h99 : (linspace (-pre_duration) (pure_duration ms + post_extra) 100).getD 99 0 =
      pure_duration ms + post_extra := by
    rw [linspace_getD _ _ (by norm_num : (99:ℕ) < 100)]
    push_cast
    ring
  refine ⟨⟨minList_mem hd, fun d hdm => minList_le d hdm⟩, rfl, linspace_length _ _ _,
    h0, h99, ?_, fun hp hq => ⟨by rw [h0, hp, neg_zero], by rw [h99, hq, add_zero]⟩⟩
  intro i hi
  rw [linspace_getD _ _ hi, linspace_getD _ _ (by omega : i < 100)]
  push_cast
  ring

/-- Witness for C4 at the two-moment example with
`pre_duration = post_extra = 0`. -/
theorem aligned_shared_grid_witness :
    durations [momA, momB] ≠ [] ∧
    (aggregated_graphs_line storeAB [momA, momB] 0 0).isOk = true ∧
    ((pure_duration [momA, momB] ∈ durations [momA, momB] ∧
      ∀ d ∈ durations [momA, momB], pure_duration [momA, momB] ≤ d) ∧
     lineGrid (aggregated_graphs_line storeAB [momA, momB] 0 0) =
       linspace (-(0:ℚ)) (pure_duration [momA, momB] + 0) 100 ∧
     (lineGrid (aggregated_graphs_line storeAB [momA, momB] 0 0)).length = 100 ∧
     (lineGrid (aggregated_graphs_line storeAB [momA, momB] 0 0)).getD 0 0 = -(0:ℚ) ∧
     (lineGrid (aggregated_graphs_line storeAB [momA, momB] 0 0)).getD 99 0 =
       pure_duration [momA, momB] + 0 ∧
     (∀ i : ℕ, i + 1 < 100 →
       (lineGrid (aggregated_graphs_line storeAB [momA, momB] 0 0)).getD (i+1) 0 -
         (lineGrid (aggregated_graphs_line storeAB [momA, momB] 0 0)).getD i 0 =
         ((0:ℚ) + (pure_duration [momA, momB] + 0)) / 99) ∧
     ((0:ℚ) = 0 → (0:ℚ) = 0 →
       (lineGrid (aggregated_graphs_line storeAB [momA, momB] 0 0)).getD 0 0 = 0 ∧
       (lineGrid (aggregated_graphs_line storeAB [momA, momB] 0 0)).getD 99 0 =
         pure_duration [momA, momB])) :=
  ⟨of_decide_eq_true (by with_unfolding_all rfl),
   of_decide_eq_true (by with_unfolding_all rfl),
   aligned_shared_grid storeAB [momA, momB] 0 0
     (of_decide_eq_true (by with_unfolding_all rfl))
     (of_decide_eq_true (by with_unfolding_all rfl))⟩

/-! ### C1 — aligned (line) averaging -/

/-- Counterexample to C1's end-to-end example as stated: for the two example
moments (Engagement [0.2,0.4,0.6] and [0.3,0.5,0.7] at t=[0,1,2], start=0,
end=2, pre=post=0) the aligned pipeline succeeds, but the 100-point grid
`np.linspace(0, 2, 100)` contains no grid point `t = 1` (its points are
`2k/99`), and no grid point's averaged Engagement value equals 0.45 — so
"the averaged Engagement at grid point t=1 equals 0.45" holds at no grid
point. -/
theorem aligned_average_example_cex :
    (aggregated_graphs_line storeAB [momA, momB] 0 0).isOk = true ∧
    (1:ℚ) ∉ lineGrid (aggregated_graphs_line storeAB [momA, momB] 0 0) ∧
    ∀ v ∈ (lineAveragedAt (aggregated_graphs_line storeAB [momA, momB] 0 0)
      "Engagement").getD [], v ≠ 9/20 :=
  ⟨of_decide_eq_true (by with_unfolding_all rfl),
   of_decide_eq_true (by with_unfolding_all rfl),
   of_decide_eq_true (by with_unfolding_all rfl)⟩

/-- C1 (amended): per grid point and canonical measure, the aligned output
is the arithmetic mean, over the included events whose columns carry the
measure, of the event's series linearly interpolated at that grid point
(timestamps having been re-based to the event's own start inside the scan);
a measure with zero contributing events is reported as `none`, never as
zero. The statement is scoped to the domain where the ℚ model coincides
with the program: every included event's segment is non-empty (`np.interp`
raises, uncaught, on an empty segment) and the measure's column carries no
missing (NaN) cells (the source feeds NaNs into `np.interp`, which
NaN-contaminates the averages); on that domain the interpolation input is
provably the whole non-empty column, row for row. In the end-to-end
example the averaged Engagement series equals `1/4 + t/5` at every grid
point t, and the mean of the two interpolated series evaluated at t = 1 —
which is not one of the 100 grid points — equals 0.45. -/
theorem aligned_average (store : Store) (ms : List Moment)
    (pre_duration post_extra pure_dur : ℚ) (meas : String)
    (hm : meas ∈ ORDERED_MEASURES)
    (hscan : (lineScan store pre_duration post_extra (pure_dur + post_extra) ms).1 ≠ [])
    (hne : ∀ ev ∈ (lineScan store pre_duration post_extra (pure_dur + post_extra) ms).1,
      ev.rows ≠ [])
    (hcomp : ∀ ev ∈ (lineScan store pre_duration post_extra (pure_dur + post_extra) ms).1,
      meas ∈ ev.cols → completeCol ev.rows meas = true) :
    (∀ ev ∈ ((lineScan store pre_duration post_extra (pure_dur + post_extra) ms).1.filter
        (fun ev => decide (meas ∈ ev.cols))),
      colPairs ev.rows meas =
        ev.rows.map (fun r => (r.time, (r.cells.lookup meas).getD 0)) ∧
      colPairs ev.rows meas ≠ []) ∧
    (((lineScan store pre_duration post_extra (pure_dur + post_extra) ms).1.filter
        (fun ev => decide (meas ∈ ev.cols))) = [] →
      lineAveragedAt (aggregated_line store ms pre_duration post_extra pure_dur) meas =
        none) ∧
    (((lineScan store pre_duration post_extra (pure_dur + post_extra) ms).1.filter
        (fun ev => decide (meas ∈ ev.cols))) ≠ [] →
      lineAveragedAt (aggregated_line store ms pre_duration post_extra pure_dur) meas =
        some ((List.range 100).map fun i =>
          (((lineScan store pre_duration post_extra (pure_dur + post_extra) ms).1.filter
              (fun ev => decide (meas ∈ ev.cols))).map
            (fun ev => interpPairs (colPairs ev.rows meas)
              ((linspace (-pre_duration) (pure_dur + post_extra) 100).getD i 0))).sum /
          ((((lineScan store pre_duration post_extra (pure_dur + post_extra) ms).1.filter
              (fun ev => decide (meas ∈ ev.cols))).length : ℚ)))) ∧
    lineAveragedAt (aggregated_graphs_line storeAB [momA, momB] 0 0) "Engagement" =
      some ((linspace 0 2 100).map fun t => 1/4 + t/5) ∧
    ((lineScan storeAB 0 0 2 [momA, momB]).1.map
       (fun ev => interpPairs (colPairs ev.rows "Engagement") 1)).sum /
      (((lineScan storeAB 0 0 2 [momA, momB]).1.length : ℚ)) = 9/20 := by
  have hav := lineAveragedAt_ok store ms pre_duration post_extra pure_dur hscan hm
  have hchar := averagedFor_char
    (lineScan store pre_duration post_extra (pure_dur + post_extra) ms).1
    (linspace (-pre_duration) (pure_dur + post_extra) 100) meas
  refine ⟨?_, ?_, ?_, by with_unfolding_all rfl, by with_unfolding_all rfl⟩
  · intro ev hev
    have hmem := (List.mem_filter.1 hev).1
    have hcols : meas ∈ ev.cols := by
      simpa using (List.mem_filter.1 hev).2
    have hpairs := colPairs_of_complete ev.rows meas (hcomp ev hmem hcols)
    refine ⟨hpairs, ?_⟩
    rw [hpairs]
    simpa using hne ev hmem
  · intro hc
    rw [hav, hchar, if_pos hc]
  · intro hc
    rw [hav, hchar, if_neg hc, linspace_length]

/-- Witness for the amended C1 at the end-to-end example (measure
Engagement, `pure_dur = 2`, all hypotheses — scan non-empty, non-empty
segments, NaN-free Engagement columns — discharged concretely). -/
theorem aligned_average_witness :
    "Engagement" ∈ ORDERED_MEASURES ∧
    (lineScan storeAB 0 0 (2 + 0) [momA, momB]).1 ≠ [] ∧
    (∀ ev ∈ (lineScan storeAB 0 0 (2 + 0) [momA, momB]).1, ev.rows ≠ []) ∧
    (∀ ev ∈ (lineScan storeAB 0 0 (2 + 0) [momA, momB]).1,
      "Engagement" ∈ ev.cols → completeCol ev.rows "Engagement" = true) ∧
    ((∀ ev ∈ ((lineScan storeAB 0 0 (2 + 0) [momA, momB]).1.filter
        (fun ev => decide ("Engagement" ∈ ev.cols))),
      colPairs ev.rows "Engagement" =
        ev.rows.map (fun r => (r.time, (r.cells.lookup "Engagement").getD 0)) ∧
      colPairs ev.rows "Engagement" ≠ []) ∧
    (((lineScan storeAB 0 0 (2 + 0) [momA, momB]).1.filter
        (fun ev => decide ("Engagement" ∈ ev.cols))) = [] →
      lineAveragedAt (aggregated_line storeAB [momA, momB] 0 0 2) "Engagement" =
        none) ∧
    (((lineScan storeAB 0 0 (2 + 0) [momA, momB]).1.filter
        (fun ev => decide ("Engagement" ∈ ev.cols))) ≠ [] →
      lineAveragedAt (aggregated_line storeAB [momA, momB] 0 0 2) "Engagement" =
        some ((List.range 100).map fun i =>
          (((lineScan storeAB 0 0 (2 + 0) [momA, momB]).1.filter
              (fun ev => decide ("Engagement" ∈ ev.cols))).map
            (fun ev => interpPairs (colPairs ev.rows "Engagement")
              ((linspace (-(0:ℚ)) (2 + 0) 100).getD i 0))).sum /
          ((((lineScan storeAB 0 0 (2 + 0) [momA, momB]).1.filter
              (fun ev => decide ("Engagement" ∈ ev.cols))).length : ℚ)))) ∧
    lineAveragedAt (aggregated_graphs_line storeAB [momA, momB] 0 0) "Engagement" =
      some ((linspace 0 2 100).map fun t => 1/4 + t/5) ∧
    ((lineScan storeAB 0 0 2 [momA, momB]).1.map
       (fun ev => interpPairs (colPairs ev.rows "Engagement") 1)).sum /
      (((lineScan storeAB 0 0 2 [momA, momB]).1.length : ℚ)) = 9/20) :=
  ⟨by decide, of_decide_eq_true (by with_unfolding_all rfl),
   of_decide_eq_true (by with_unfolding_all rfl),
   of_decide_eq_true (by with_unfolding_all rfl),
   aligned_average storeAB [momA, momB] 0 0 2 "Engagement" (by decide)
     (of_decide_eq_true (by with_unfolding_all rfl))
     (of_decide_eq_true (by with_unfolding_all rfl))
     (of_decide_eq_true (by with_unfolding_all rfl))⟩

/-! ### C2 — aligned exclusion policy -/

/-- A short series for the exclusion example: two samples at t = 0, 1. -/
def dfC : DataFrame :=
  ⟨["Engagement"], [⟨0, [("Engagement", 1/10)]⟩, ⟨1, [("Engagement", 1/5)]⟩]⟩

/-- The same series extended with a third sample at t = 2. -/
def dfC2 : DataFrame :=
  ⟨["Engagement"],
   [⟨0, [("Engagement", 1/10)]⟩, ⟨1, [("Engagement", 1/5)]⟩,
    ⟨2, [("Engagement", 3/10)]⟩]⟩

/-- A store holding the short series for video C. -/
def storeC : Store := fun v => if v = "C" then .ok dfC else .missing

/-- A store holding the extended series for video C. -/
def storeC2 : Store := fun v => if v = "C" then .ok dfC2 else .missing

/-- A moment on video C with start 1. -/
def momC : Moment := ⟨"C", some 1, some 2, "AdC"⟩

/-- C2: when `pre_duration > 0` or `post_extra > 0`, a moment whose
requested window `[start - pre_duration, start + effective_post]` leaves
`[available_start - 0.05, available_end + 0.05]` of its own series is
excluded with its label recorded in the excluded list (and the scan
continues with the remaining moments); a moment whose series covers the
window is included; and inclusion is monotone in coverage: a moment
excluded because its series ends before `start + effective_post - 0.05`
becomes included once the series is extended (same first timestamp, last
timestamp covering the window). -/
theorem aligned_exclusion (store store2 : Store)
    (pre_duration post_extra effective_post : ℚ) (m : Moment) (rest : List Moment)
    {st et : ℚ} {df df2 : DataFrame}
    (hst : m.start_time = some st) (het : m.end_time = some et)
    (hsv : store m.video_id = .ok df)
    (hp : pre_duration > 0 ∨ post_extra > 0) :
    ((st - pre_duration) < (df.minTime - tol) ∨
        (st + effective_post) > (df.maxTime + tol) →
      lineMoment store pre_duration post_extra effective_post m =
        some (.excluded m.ad_name) ∧
      lineScan store pre_duration post_extra effective_post (m :: rest) =
        ((lineScan store pre_duration post_extra effective_post rest).1,
         m.ad_name :: (lineScan store pre_duration post_extra effective_post rest).2)) ∧
    ((df.minTime - tol) ≤ (st - pre_duration) ∧
        (st + effective_post) ≤ (df.maxTime + tol) →
      lineMoment store pre_duration post_extra effective_post m =
        some (.included ⟨df.cols,
          shiftRows (df.rows.filter fun r =>
            decide ((st - pre_duration) ≤ r.time) &&
            decide (r.time ≤ (st + effective_post))) st⟩)) ∧
    (store2 m.video_id = .ok df2 → df2.minTime = df.minTime →
      (df.minTime - tol) ≤ (st - pre_duration) →
      df.maxTime < st + effective_post - tol →
      st + effective_post ≤ df2.maxTime + tol →
      lineMoment store pre_duration post_extra effective_post m =
        some (.excluded m.ad_name) ∧
      lineMoment store2 pre_duration post_extra effective_post m =
        some (.included ⟨df2.cols,
          shiftRows (df2.rows.filter fun r =>
            decide ((st - pre_duration) ≤ r.time) &&
            decide (r.time ≤ (st + effective_post))) st⟩)) := by
  refine ⟨?_, ?_, ?_⟩
  · intro hout
    have hex := lineMoment_ok_excluded store pre_duration post_extra effective_post m
      hst het hsv ⟨hp, hout⟩
    refine ⟨hex, ?_⟩
    rw [lineScan_cons, hex]
  · intro hin
    exact lineMoment_ok_included store pre_duration post_extra effective_post m
      hst het hsv
      (fun hc => hc.2.elim (fun hb => absurd hb (not_lt.2 hin.1))
        (fun hc2 => absurd hc2 (not_lt.2 hin.2)))
  · intro hsv2 hmin hstart hshort hcover
    refine ⟨lineMoment_ok_excluded store pre_duration post_extra effective_post m
      hst het hsv ⟨hp, Or.inr (by linarith)⟩, ?_⟩
    exact lineMoment_ok_included store2 pre_duration post_extra effective_post m
      hst het hsv2
      (fun hc => hc.2.elim
        (fun hb => absurd hb (not_lt.2 (by rw [hmin]; exact hstart)))
        (fun hc2 => absurd hc2 (not_lt.2 hcover)))

/-- Witness for C2: video C's two-sample series (times 0, 1) with start 1,
`pre_duration = 1`, `effective_post = 1` is excluded (window `[0, 2]` ends
past `1 + 0.05`); the three-sample extension (times 0, 1, 2) is included. -/
theorem aligned_exclusion_witness :
    momC.start_time = some 1 ∧ momC.end_time = some 2 ∧
    storeC momC.video_id = .ok dfC ∧ ((1:ℚ) > 0 ∨ (0:ℚ) > 0) ∧
    ((((1:ℚ) - 1) < (dfC.minTime - tol) ∨ ((1:ℚ) + 1) > (dfC.maxTime + tol) →
      lineMoment storeC 1 0 1 momC = some (.excluded momC.ad_name) ∧
      lineScan storeC 1 0 1 (momC :: []) =
        ((lineScan storeC 1 0 1 []).1,
         momC.ad_name :: (lineScan storeC 1 0 1 []).2)) ∧
    ((dfC.minTime - tol) ≤ ((1:ℚ) - 1) ∧ ((1:ℚ) + 1) ≤ (dfC.maxTime + tol) →
      lineMoment storeC 1 0 1 momC =
        some (.included ⟨dfC.cols,
          shiftRows (dfC.rows.filter fun r =>
            decide (((1:ℚ) - 1) ≤ r.time) && decide (r.time ≤ ((1:ℚ) + 1))) 1⟩)) ∧
    (storeC2 momC.video_id = .ok dfC2 → dfC2.minTime = dfC.minTime →
      (dfC.minTime - tol) ≤ ((1:ℚ) - 1) →
      dfC.maxTime < (1:ℚ) + 1 - tol →
      (1:ℚ) + 1 ≤ dfC2.maxTime + tol →
      lineMoment storeC 1 0 1 momC = some (.excluded momC.ad_name) ∧
      lineMoment storeC2 1 0 1 momC =
        some (.included ⟨dfC2.cols,
          shiftRows (dfC2.rows.filter fun r =>
            decide (((1:ℚ) - 1) ≤ r.time) && decide (r.time ≤ ((1:ℚ) + 1))) 1⟩))) :=
  ⟨rfl, rfl, by with_unfolding_all rfl, Or.inl (by norm_num),
   aligned_exclusion storeC storeC2 1 0 1 momC [] rfl rfl
     (by with_unfolding_all rfl) (Or.inl (by norm_num))⟩

/-! ### C5 — pooled (box) statistics -/

/-- A single-sample series for video D. -/
def dfD : DataFrame := ⟨["Engagement"], [⟨0, [("Engagement", 3/10)]⟩]⟩

/-- A single-sample series for video E with a different value. -/
def dfE : DataFrame := ⟨["Engagement"], [⟨0, [("Engagement", 2/5)]⟩]⟩

/-- A store holding only video D. -/
def storeD : Store := fun v => if v = "D" then .ok dfD else .missing

/-- A store holding videos D and E. -/
def storeDE : Store := fun v =>
  if v = "D" then .ok dfD else if v = "E" then .ok dfE else .missing

/-- A moment selecting video D's single sample. -/
def momD : Moment := ⟨"D", some 0, some 0, "AdD"⟩

/-- A moment selecting video E's single sample. -/
def momE : Moment := ⟨"E", some 0, some 0, "AdE"⟩

/-- C5: for each canonical measure, the pooled `box_data` sample equals the
concatenation, over the non-empty end-snapped segments in moment order, of
that measure's non-missing values (a segment whose columns lack the measure
contributes nothing); the reported statistics are min, max, arithmetic mean
and the sample deviation with denominator `n - 1` (`pooledStats`; its last
component is the sample variance, whose square root is the std, undefined
exactly when the variance is `none`); a pooled sample of exactly one value
has variance/std undefined (`none`), never 0. -/
theorem pooled_box_stats (store : Store) (moments : List Moment) (meas : String)
    (hm : meas ∈ ORDERED_MEASURES) :
    box_data store moments meas = specPooled store moments meas ∧
    ((box_data store moments meas).length = 1 →
      (pooledStats (box_data store moments meas)).2.2.2 = none ∧
      (pooledStats (box_data store moments meas)).2.2.2 ≠ some 0) ∧
    (∀ l : List ℚ, 2 ≤ l.length →
      (pooledStats l).2.2.2 =
        some ((l.map fun x => (x - mean l) ^ 2).sum / ((l.length : ℚ) - 1))) := by
  refine ⟨box_data_eq_specPooled store moments hm, ?_, ?_⟩
  · intro h1
    have hv : sampleVar (box_data store moments meas) = none := by
      rw [sampleVar, if_pos (by simp [h1])]
    exact ⟨hv, by rw [show (pooledStats (box_data store moments meas)).2.2.2 =
      sampleVar (box_data store moments meas) from rfl, hv]; simp⟩
  · intro l hl
    show sampleVar l = _
    rw [sampleVar, if_neg (by omega)]

/-- Witness for C5: pooling video D's single Engagement sample gives the
one-value pool `[3/10]`, whose variance/std is undefined. -/
theorem pooled_box_stats_witness :
    "Engagement" ∈ ORDERED_MEASURES ∧
    (box_data storeD [momD] "Engagement" = specPooled storeD [momD] "Engagement" ∧
    ((box_data storeD [momD] "Engagement").length = 1 →
      (pooledStats (box_data storeD [momD] "Engagement")).2.2.2 = none ∧
      (pooledStats (box_data storeD [momD] "Engagement")).2.2.2 ≠ some 0) ∧
    (∀ l : List ℚ, 2 ≤ l.length →
      (pooledStats l).2.2.2 =
        some ((l.map fun x => (x - mean l) ^ 2).sum / ((l.length : ℚ) - 1)))) ∧
    (box_data storeD [momD] "Engagement").length = 1 :=
  ⟨by decide, pooled_box_stats storeD [momD] "Engagement" (by decide),
   of_decide_eq_true (by with_unfolding_all rfl)⟩

/-! ### C7 — pooled (box) order dependence -/

/-- Counterexample to C7 as stated: swapping the two moments D and E (a
permutation of the input list) changes the `aggregated_box` output — the
pooled Engagement values appear as `[3/10, 2/5]` in one order and
`[2/5, 3/10]` in the other, so the emitted CSV value cells differ. -/
theorem pooled_box_order_cex :
    ([momD, momE] : List Moment).Perm [momE, momD] ∧
    aggregated_box storeDE [momD, momE] ≠ aggregated_box storeDE [momE, momD] :=
  ⟨List.Perm.swap momE momD [], of_decide_eq_true (by with_unfolding_all rfl)⟩

/-- C7 (amended): permuting the input moment list permutes each measure's
pooled sample (the same multiset of values), so every order-insensitive
statistic — min, max, mean, sample variance/std — is unchanged; but the
pooled value sequences (and hence the CSV `Value_i` cells) appear in
correspondingly permuted order and are not in general equal. -/
theorem pooled_box_order (store : Store) {ms₁ ms₂ : List Moment}
    (h : ms₁.Perm ms₂) (meas : String) (hm : meas ∈ ORDERED_MEASURES) :
    (box_data store ms₁ meas).Perm (box_data store ms₂ meas) ∧
    pooledStats (box_data store ms₁ meas) = pooledStats (box_data store ms₂ meas) := by
  have hperm : (box_data store ms₁ meas).Perm (box_data store ms₂ meas) := by
    rw [box_data_eq_specPooled store ms₁ hm, box_data_eq_specPooled store ms₂ hm]
    exact specPooled_perm store h meas
  refine ⟨hperm, ?_⟩
  rw [pooledStats, pooledStats, minList_perm hperm, maxList_perm hperm,
    mean_perm hperm, sampleVar_perm hperm]

/-- Witness for the amended C7 at the swapped two-moment pool. -/
theorem pooled_box_order_witness :
    ([momD, momE] : List Moment).Perm [momE, momD] ∧
    "Engagement" ∈ ORDERED_MEASURES ∧
    ((box_data storeDE [momD, momE] "Engagement").Perm
      (box_data storeDE [momE, momD] "Engagement") ∧
     pooledStats (box_data storeDE [momD, momE] "Engagement") =
       pooledStats (box_data storeDE [momE, momD] "Engagement")) :=
  ⟨List.Perm.swap momE momD [], by decide,
   pooled_box_order storeDE (List.Perm.swap momE momD []) "Engagement" (by decide)⟩

/-! ### C8 — missing datasets vs. other read failures -/

/-- A store where video X's dataset read raises and video A loads fine. -/
def storeX : Store := fun v =>
  if v = "X" then .readError else if v = "A" then .ok dfA else .missing

/-- A moment on the failing video X. -/
def momX : Moment := ⟨"X", some 0, some 1, "BadAd"⟩

/-- A moment on a video with no dataset at all. -/
def momM : Moment := ⟨"M", some 0, some 1, "MissAd"⟩

/-- A moment whose start time does not parse. -/
def momU : Moment := ⟨"A", none, some 1, "AdU"⟩

/-- Counterexample to C8 as stated: in aligned mode a dataset read failure
is not treated like NotFound — the moment's ad name is recorded in the
excluded list ("BadAd" here), while aggregation continues with the
remaining moment and succeeds. -/
theorem io_failure_cex :
    (aggregated_line storeX [momX, momA] 0 0 1).isOk = true ∧
    lineExcluded (aggregated_line storeX [momX, momA] 0 0 1) = ["BadAd"] :=
  ⟨by with_unfolding_all rfl, by with_unfolding_all rfl⟩

/-- C8 (amended): a missing dataset (NotFound) is skipped silently in both
modes; any other dataset read failure is also skipped and aggregation
continues with the remaining moments, but in aligned (line) mode the
moment's ad name is recorded in the excluded list, while the pooled /
averages paths skip it silently like NotFound. -/
theorem io_failure_skip (store : Store)
    (pre_duration post_extra effective_post : ℚ) (m : Moment)
    (rest : List Moment) {st et : ℚ}
    (hst : m.start_time = some st) (het : m.end_time = some et) :
    (store m.video_id = .missing →
      lineMoment store pre_duration post_extra effective_post m = none ∧
      segContrib store m = none ∧
      lineScan store pre_duration post_extra effective_post (m :: rest) =
        lineScan store pre_duration post_extra effective_post rest) ∧
    (store m.video_id = .readError →
      lineMoment store pre_duration post_extra effective_post m =
        some (.excluded m.ad_name) ∧
      segContrib store m = none ∧
      lineScan store pre_duration post_extra effective_post (m :: rest) =
        ((lineScan store pre_duration post_extra effective_post rest).1,
         m.ad_name :: (lineScan store pre_duration post_extra effective_post rest).2)) := by
  constructor
  · intro hsv
    have h1 := lineMoment_missing store pre_duration post_extra effective_post m
      hst het hsv
    refine ⟨h1, ?_, by rw [lineScan_cons, h1]⟩
    obtain ⟨v, s, e, ad⟩ := m
    simp only at hst het hsv
    subst hst; subst het
    simp [segContrib, hsv]
  · intro hsv
    have h1 := lineMoment_readError store pre_duration post_extra effective_post m
      hst het hsv
    refine ⟨h1, ?_, by rw [lineScan_cons, h1]⟩
    obtain ⟨v, s, e, ad⟩ := m
    simp only at hst het hsv
    subst hst; subst het
    simp [segContrib, hsv]

/-- Witness for the amended C8 on the read-failing video X followed by a
good moment. -/
theorem io_failure_skip_witness :
    momX.start_time = some 0 ∧ momX.end_time = some 1 ∧
    ((storeX momX.video_id = .missing →
      lineMoment storeX 0 0 1 momX = none ∧
      segContrib storeX momX = none ∧
      lineScan storeX 0 0 1 (momX :: [momA]) = lineScan storeX 0 0 1 [momA]) ∧
    (storeX momX.video_id = .readError →
      lineMoment storeX 0 0 1 momX = some (.excluded momX.ad_name) ∧
      segContrib storeX momX = none ∧
      lineScan storeX 0 0 1 (momX :: [momA]) =
        ((lineScan storeX 0 0 1 [momA]).1,
         momX.ad_name :: (lineScan storeX 0 0 1 [momA]).2))) :=
  ⟨rfl, rfl, io_failure_skip storeX 0 0 1 momX [momA] rfl rfl⟩

/-! ### C9 — the NoData terminal condition -/

/-- Counterexample to C9 as stated for the pooled (box) graph path: a
request in which every moment fails to contribute does not terminate with a
"no valid data" error — `aggregated_box` has no error outcome and returns
the empty aggregate (no data rows, padding width 0). -/
theorem no_data_box_cex : aggregated_box storeX [momM] = ⟨[], 0⟩ := by
  with_unfolding_all rfl

/-- C9 (amended): when every moment fails to contribute, the averages path
and the aligned (line) path terminate with their "no valid data" error,
while the pooled box-graph path instead returns an empty aggregate; a
moment with an unparseable start is dropped silently in all three paths,
and if some moment does contribute a non-empty segment, the averages path
succeeds. -/
theorem no_data_terminal (store : Store) (ms : List Moment)
    (pre_duration post_extra pure_dur : ℚ) (m : Moment) (rest : List Moment) :
    (ms.filterMap (segContrib store) = [] →
      compute_averages store ms =
        .error "No valid CSV data found for the selected moments.") ∧
    ((lineScan store pre_duration post_extra (pure_dur + post_extra) ms).1 = [] →
      aggregated_line store ms pre_duration post_extra pure_dur =
        .error "No valid CSV data for graphing after exclusions.") ∧
    ((∀ mm ∈ ms, segContrib store mm = none) → aggregated_box store ms = ⟨[], 0⟩) ∧
    (m.start_time = none →
      compute_averages store (m :: rest) = compute_averages store rest ∧
      lineScan store pre_duration post_extra (pure_dur + post_extra) (m :: rest) =
        lineScan store pre_duration post_extra (pure_dur + post_extra) rest ∧
      ∀ meas, box_data store (m :: rest) meas = box_data store rest meas) ∧
    ((∃ mm ∈ ms, segContrib store mm ≠ none) →
      ∃ r, compute_averages store ms = .ok r) := by
  have hsegnone : m.start_time = none → segContrib store m = none := by
    intro hst
    obtain ⟨v, s, e, ad⟩ := m
    simp only at hst
    subst hst
    rfl
  refine ⟨?_, aggregated_line_of_empty store ms pre_duration post_extra pure_dur,
    ?_, ?_, ?_⟩
  · intro h
    simp only [compute_averages]
    rw [if_pos h]
  · intro hall
    have hfm : ms.filterMap (segContrib store) = [] :=
      List.filterMap_eq_nil_iff.mpr hall
    have hbd : ∀ meas ∈ ORDERED_MEASURES, box_data store ms meas = [] := by
      intro meas hm
      rw [box_data_eq_specPooled store ms hm, specPooled, hfm]
      rfl
    rw [aggregated_box]
    simp only [BoxResult.mk.injEq]
    constructor
    · exact List.filterMap_eq_nil_iff.mpr fun meas hm => by simp [hbd meas hm]
    · have hfe : ((ORDERED_MEASURES.map fun meas => box_data store ms meas).filter
          fun v => decide (v ≠ [])) = [] := by
        rw [List.filter_eq_nil_iff]
        intro v hv
        obtain ⟨meas, hm, hveq⟩ := List.mem_map.1 hv
        simp [← hveq, hbd meas hm]
      rw [hfe]
      rfl
  · intro hst
    have hseg := hsegnone hst
    refine ⟨?_, ?_, ?_⟩
    · simp only [compute_averages, List.filterMap_cons, hseg]
    · rw [lineScan_cons,
        lineMoment_unparseable store pre_duration post_extra
          (pure_dur + post_extra) m (Or.inl hst)]
    · intro meas
      simp only [box_data, box_loop, hseg]
  · intro hex
    obtain ⟨mm, hmm, hne⟩ := hex
    obtain ⟨s, hs⟩ := Option.ne_none_iff_exists'.1 hne
    have hmem : s ∈ ms.filterMap (segContrib store) :=
      List.mem_filterMap.2 ⟨mm, hmm, hs⟩
    have hnn : ms.filterMap (segContrib store) ≠ [] :=
      List.ne_nil_of_mem hmem
    simp only [compute_averages]
    rw [if_neg hnn]
    exact ⟨_, rfl⟩

/-- Witness for the amended C9: all moments fail (missing dataset) for the
error paths, the box path returns the empty aggregate, an unparseable
moment is dropped, and a contributing moment makes the averages path
succeed. -/
theorem no_data_terminal_witness :
    ((([momM] : List Moment).filterMap (segContrib storeX) = [] →
      compute_averages storeX [momM] =
        .error "No valid CSV data found for the selected moments.") ∧
    ((lineScan storeX 0 0 (1 + 0) [momM]).1 = [] →
      aggregated_line storeX [momM] 0 0 1 =
        .error "No valid CSV data for graphing after exclusions.") ∧
    ((∀ mm ∈ ([momM] : List Moment), segContrib storeX mm = none) →
      aggregated_box storeX [momM] = ⟨[], 0⟩) ∧
    (momU.start_time = none →
      compute_averages storeX (momU :: [momA]) = compute_averages storeX [momA] ∧
      lineScan storeX 0 0 (1 + 0) (momU :: [momA]) =
        lineScan storeX 0 0 (1 + 0) [momA] ∧
      ∀ meas, box_data storeX (momU :: [momA]) meas = box_data storeX [momA] meas) ∧
    ((∃ mm ∈ ([momM] : List Moment), segContrib storeX mm ≠ none) →
      ∃ r, compute_averages storeX [momM] = .ok r)) ∧
    momU.start_time = none ∧
    (∃ mm ∈ ([momA] : List Moment), segContrib storeX mm ≠ none) ∧
    (∃ r, compute_averages storeX [momA] = .ok r) :=
  ⟨no_data_terminal storeX [momM] 0 0 1 momU [momA],
   rfl,
   ⟨momA, List.mem_cons_self momA [],
    of_decide_eq_true (by with_unfolding_all rfl)⟩,
   (no_data_terminal storeX [momA] 0 0 1 momU []).2.2.2.2
     ⟨momA, List.mem_cons_self momA [],
      of_decide_eq_true (by with_unfolding_all rfl)⟩⟩

/-! ### C6 — aligned CSV time-column round trip -/

/-- C6: the aligned CSV's `Time(ms)` column has one entry per grid point,
aligned 1:1 with the 100-point shared grid; each entry is the grid time in
integer milliseconds (`int(t * 1000)`, truncation toward zero); and parsing
the column back to seconds (dividing by 1000) recovers every grid value to
within the millisecond quantisation, i.e. with error strictly below
0.001 s. -/
theorem aligned_csv_roundtrip (store : Store) (ms : List Moment)
    (pre_duration post_extra pure_dur : ℚ)
    (hok : (aggregated_line store ms pre_duration post_extra pure_dur).isOk = true) :
    (lineTimeMs (aggregated_line store ms pre_duration post_extra pure_dur)).length =
      (lineGrid (aggregated_line store ms pre_duration post_extra pure_dur)).length ∧
    (lineGrid (aggregated_line store ms pre_duration post_extra pure_dur)).length =
      100 ∧
    (∀ i : ℕ,
      (lineTimeMs (aggregated_line store ms pre_duration post_extra pure_dur)).getD i 0 =
        pyInt ((lineGrid
          (aggregated_line store ms pre_duration post_extra pure_dur)).getD i 0 * 1000)) ∧
    (∀ i : ℕ,
      |(lineGrid (aggregated_line store ms pre_duration post_extra pure_dur)).getD i 0 -
        ((lineTimeMs
          (aggregated_line store ms pre_duration post_extra pure_dur)).getD i 0 : ℚ) /
          1000| < 1/1000) := by
  have hscan :
      (lineScan store pre_duration post_extra (pure_dur + post_extra) ms).1 ≠ [] :=
    (aggregated_line_isOk store ms pre_duration post_extra pure_dur).1 hok
  have hg := lineGrid_ok store ms pre_duration post_extra pure_dur hscan
  have ht := lineTimeMs_ok store ms pre_duration post_extra pure_dur hscan
  have hmsidx : ∀ i : ℕ,
      (lineTimeMs (aggregated_line store ms pre_duration post_extra pure_dur)).getD i 0 =
        pyInt ((lineGrid
          (aggregated_line store ms pre_duration post_extra pure_dur)).getD i 0 * 1000) := by
    intro i
    rw [hg, ht, timeMsColumn]
    by_cases hi : i < (linspace (-pre_duration) (pure_dur + post_extra) 100).length
    · rw [getD_map_of_lt _ _ i hi 0 0]
    · rw [List.getD_eq_default _ _ (by simpa using not_lt.1 hi),
        List.getD_eq_default _ _ (not_lt.1 hi)]
      norm_num [pyInt]
  refine ⟨?_, ?_, hmsidx, ?_⟩
  · rw [hg, ht, timeMsColumn, List.length_map]
  · rw [hg, linspace_length]
  · intro i
    rw [hmsidx i]
    have hb := abs_sub_pyInt_lt
      ((lineGrid (aggregated_line store ms pre_duration post_extra pure_dur)).getD i 0 *
        1000)
    set t := (lineGrid (aggregated_line store ms pre_duration post_extra pure_dur)).getD i 0
    have h2 : t - (pyInt (t * 1000) : ℚ) / 1000 =
        (t * 1000 - (pyInt (t * 1000) : ℚ)) / 1000 := by ring
    rw [h2, abs_div, abs_of_pos (by norm_num : (0:ℚ) < 1000)]
    linarith

/-- Witness for C6 at the two-moment example. -/
theorem aligned_csv_roundtrip_witness :
    (aggregated_line storeAB [momA, momB] 0 0 2).isOk = true ∧
    ((lineTimeMs (aggregated_line storeAB [momA, momB] 0 0 2)).length =
      (lineGrid (aggregated_line storeAB [momA, momB] 0 0 2)).length ∧
    (lineGrid (aggregated_line storeAB [momA, momB] 0 0 2)).length = 100 ∧
    (∀ i : ℕ,
      (lineTimeMs (aggregated_line storeAB [momA, momB] 0 0 2)).getD i 0 =
        pyInt ((lineGrid (aggregated_line storeAB [momA, momB] 0 0 2)).getD i 0 * 1000)) ∧
    (∀ i : ℕ,
      |(lineGrid (aggregated_line storeAB [momA, momB] 0 0 2)).getD i 0 -
        ((lineTimeMs (aggregated_line storeAB [momA, momB] 0 0 2)).getD i 0 : ℚ) /
          1000| < 1/1000)) :=
  ⟨of_decide_eq_true (by with_unfolding_all rfl),
   aligned_csv_roundtrip storeAB [momA, momB] 0 0 2
     (of_decide_eq_true (by with_unfolding_all rfl))⟩

/-! ### C10 — end-time independence of aligned mode -/

/-- The "B" moment with a different end time (2.5) but the same
`pure_duration` once combined with `momA`. -/
def momB2 : Moment := ⟨"B", some 0, some (5/2), "AdB"⟩

/-- C10: in aligned (line) mode the extraction window and exclusion
decision depend only on start, `pre_duration` and `effective_post` — the
segment is always taken over `[start - pre_duration,
start + effective_post]`, never `[start, end]`; an end time influences the
aligned output only through `pure_duration`, so two moment lists agreeing
except on (parseable) end-time values give identical `aggregated_line`
output, and identical pipeline output when their `pure_duration` agrees;
and the end-snapping performed in aligned mode never changes the result
(the snapped value is dead). -/
theorem aligned_end_irrelevance (store : Store) (ms₁ ms₂ : List Moment)
    (pre_duration post_extra pure_dur : ℚ) (m : Moment) {st et : ℚ} {df : DataFrame}
    (hc : endsCompat ms₁ ms₂ = true)
    (hst : m.start_time = some st) (het : m.end_time = some et)
    (hsv : store m.video_id = .ok df)
    (hnotex : ¬((pre_duration > 0 ∨ post_extra > 0) ∧
      ((st - pre_duration) < (df.minTime - tol) ∨
       (st + pure_dur + post_extra) > (df.maxTime + tol)))) :
    aggregated_line store ms₁ pre_duration post_extra pure_dur =
      aggregated_line store ms₂ pre_duration post_extra pure_dur ∧
    (pure_duration ms₁ = pure_duration ms₂ →
      aggregated_graphs_line store ms₁ pre_duration post_extra =
        aggregated_graphs_line store ms₂ pre_duration post_extra) ∧
    aggregated_line store ms₁ pre_duration post_extra pure_dur =
      aggregated_line_nosnap store ms₁ pre_duration post_extra pure_dur ∧
    lineMoment store pre_duration post_extra (pure_dur + post_extra) m =
      some (.included ⟨df.cols,
        shiftRows (df.rows.filter fun r =>
          decide ((st - pre_duration) ≤ r.time) &&
          decide (r.time ≤ (st + (pure_dur + post_extra)))) st⟩) := by
  have key : ∀ pd : ℚ,
      aggregated_line store ms₁ pre_duration post_extra pd =
        aggregated_line store ms₂ pre_duration post_extra pd := by
    intro pd
    rw [aggregated_line_eq_nosnap, aggregated_line_eq_nosnap,
      aggregated_line_nosnap, aggregated_line_nosnap,
      lineScanNoSnap_compat store pre_duration post_extra (pd + post_extra)
        ms₁ ms₂ hc]
  refine ⟨key pure_dur, ?_,
    aggregated_line_eq_nosnap store ms₁ pre_duration post_extra pure_dur, ?_⟩
  · intro hp
    rw [aggregated_graphs_line, aggregated_graphs_line, hp]
    exact key (pure_duration ms₂)
  · refine lineMoment_ok_included store pre_duration post_extra
      (pure_dur + post_extra) m hst het hsv ?_
    intro hcond
    exact hnotex ⟨hcond.1, by
      rcases hcond.2 with h | h
      · exact Or.inl h
      · exact Or.inr (by linarith)⟩

/-- Witness for C10: the same two-moment example with B's end time moved
from 2 to 2.5 (both parse; `pure_duration` stays 2) gives identical aligned
output. -/
theorem aligned_end_irrelevance_witness :
    endsCompat [momA, momB] [momA, momB2] = true ∧
    momA.start_time = some 0 ∧ momA.end_time = some 2 ∧
    storeAB momA.video_id = .ok dfA ∧
    pure_duration [momA, momB] = pure_duration [momA, momB2] ∧
    (aggregated_line storeAB [momA, momB] 0 0 2 =
      aggregated_line storeAB [momA, momB2] 0 0 2 ∧
    (pure_duration [momA, momB] = pure_duration [momA, momB2] →
      aggregated_graphs_line storeAB [momA, momB] 0 0 =
        aggregated_graphs_line storeAB [momA, momB2] 0 0) ∧
    aggregated_line storeAB [momA, momB] 0 0 2 =
      aggregated_line_nosnap storeAB [momA, momB] 0 0 2 ∧
    lineMoment storeAB 0 0 (2 + 0) momA =
      some (.included ⟨dfA.cols,
        shiftRows (dfA.rows.filter fun r =>
          decide (((0:ℚ) - 0) ≤ r.time) &&
          decide (r.time ≤ ((0:ℚ) + (2 + 0)))) 0⟩)) :=
  ⟨by with_unfolding_all rfl, rfl, rfl, by with_unfolding_all rfl,
   of_decide_eq_true (by with_unfolding_all rfl),
   aligned_end_irrelevance storeAB [momA, momB] [momA, momB2] 0 0 2 momA
     (by with_unfolding_all rfl) rfl rfl (by with_unfolding_all rfl)
     (fun hcond => by
       rcases hcond.1 with h | h
       · exact absurd h (by norm_num)
       · exact absurd h (by norm_num))⟩

end VideoSearch
